import Mathlib

/-!
Verification of the genqlient runtime transport (`graphql` package) and the
generated polymorphic-decode helper, as a shallow embedding in Lean.

The embedding models:
* JSON values and the generated `__unmarshal<Type>` discriminator dispatch
  (from `generate/unmarshal_helper.go.tmpl`);
* the reflective variables value graph walked by `findFiles`, the file
  grouping loop and multipart body construction of `createUploadFileRequest`;
* `createGetRequest`, `createPostRequest` and `MakeRequest` of the client,
  with the HTTP round trip abstracted as a caller-supplied `Doer` function.

Go `io.Reader` file bodies are modelled by their byte content (reads succeed
and re-wrapping a buffered body with `bytes.NewReader` is the identity);
machine-level JSON text is modelled by a `Json` value tree.
-/

set_option autoImplicit false

namespace Genqlient

/-- JSON values, as produced or consumed by `encoding/json`. -/
inductive Json where
  | null
  | bool (b : Bool)
  | num (n : Int)
  | str (s : String)
  | arr (elems : List Json)
  | obj (fields : List (String × Json))

/-- Look up the first binding of a key in a JSON object's field list,
mirroring how `encoding/json` resolves a struct field from an object. -/
def lookupField : List (String × Json) → String → Option Json
  | [], _ => none
  | (k, v) :: rest, key => if k = key then some v else lookupField rest key

/-- The `graphql.Upload` struct: a file name and an `io.Reader` body,
the latter modelled by its byte content. -/
structure Upload where
  fileName : String
  body : List Nat
  deriving Repr, DecidableEq

/--
A Go value as seen by `reflect` in `findFiles`: an `Upload` leaf, a typed
pointer (nil or not), a struct with per-field Go name and raw `json` tag,
a slice/array, or any other kind (string, int, map, ...), which `findFiles`
ignores and which carries its `encoding/json` image for serialization.
-/
inductive GoValue where
  | upload (u : Upload)
  | ptrNil
  | ptr (v : GoValue)
  | struct (fields : List (String × String × GoValue))
  | slice (elems : List GoValue)
  | scalar (j : Json)

/-- The `fileVariable` struct: the dotted map key and the collected file. -/
structure FileVariable where
  mapKey : String
  file : Upload
  deriving Repr, DecidableEq

/-- The field name used by `findFiles` to extend the dotted path: the raw
`json` tag when it is nonempty and not `"-"`, else the Go field name. -/
def fieldNameOf (goName jsonTag : String) : String :=
  if jsonTag ≠ "" ∧ jsonTag ≠ "-" then jsonTag else goName

mutual

/-- The `findFiles` walk: dereference a pointer once (nil yields nothing),
collect an `Upload` leaf under `parentKey`, recurse into struct fields and
slice/array elements, and ignore every other kind.  A value that is still a
pointer after the single dereference falls into the default branch. -/
def findFiles (parentKey : String) : GoValue → List FileVariable
  | .ptrNil => []
  | .ptr (.upload u) => [⟨parentKey, u⟩]
  | .ptr (.struct fields) => findFilesFields parentKey fields
  | .ptr (.slice elems) => findFilesElems parentKey 0 elems
  | .ptr _ => []
  | .upload u => [⟨parentKey, u⟩]
  | .struct fields => findFilesFields parentKey fields
  | .slice elems => findFilesElems parentKey 0 elems
  | .scalar _ => []

/-- Struct branch of `findFiles`: extend the path with the field name
derived from the `json` tag and concatenate the results in field order. -/
def findFilesFields (parentKey : String) : List (String × String × GoValue) → List FileVariable
  | [] => []
  | (goName, jsonTag, v) :: rest =>
    findFiles (parentKey ++ "." ++ fieldNameOf goName jsonTag) v
      ++ findFilesFields parentKey rest

/-- Slice branch of `findFiles`: extend the path with the element index. -/
def findFilesElems (parentKey : String) (i : Nat) : List GoValue → List FileVariable
  | [] => []
  | v :: rest =>
    findFiles (parentKey ++ "." ++ toString i) v ++ findFilesElems parentKey (i + 1) rest

end

/-! Whitespace and prefix primitives used by the client (`strings.TrimSpace`,
`strings.HasPrefix`). -/

/-- Go `unicode.IsSpace` on the code points relevant here: ASCII whitespace,
NEL, NBSP and the Unicode space separators. -/
def goIsSpace (c : Char) : Bool :=
  c == '\t' || c == '\n' || c == '\x0b' || c == '\x0c' || c == '\r' || c == ' ' ||
  c == '\x85' || c == '\xa0' || c == ' ' ||
  decide (0x2000 ≤ c.toNat ∧ c.toNat ≤ 0x200a) ||
  c == ' ' || c == ' ' || c == ' ' || c == ' ' || c == '　'

/-- Go `strings.TrimSpace` on a character list: drop leading then trailing
whitespace. -/
def goTrimSpaceL (l : List Char) : List Char :=
  ((l.dropWhile goIsSpace).reverse.dropWhile goIsSpace).reverse

/-- Go `strings.TrimSpace`. -/
def goTrimSpace (s : String) : String :=
  ⟨goTrimSpaceL s.data⟩

/-- Go `strings.HasPrefix s p` on character lists. -/
def startsWithL : List Char → List Char → Bool
  | _, [] => true
  | [], _ :: _ => false
  | c :: s, p :: ps => c == p && startsWithL s ps

/-! Serialization of the request envelope (`encoding/json` on `Request`). -/

/-- Split a character list at commas, as Go tag parsing does. -/
def splitCommaAux : List Char → List Char → List (List Char)
  | [], acc => [acc.reverse]
  | c :: rest, acc =>
    if c = ',' then acc.reverse :: splitCommaAux rest []
    else splitCommaAux rest (c :: acc)

/-- The comma-separated pieces of a `json` struct tag. -/
def tagParts (tag : String) : List String :=
  (splitCommaAux tag.data []).map String.mk

/-- The name part of a `json` struct tag: the text before the first comma. -/
def jsonTagName (tag : String) : String :=
  (tagParts tag).headD ""

/-- Whether a `json` struct tag carries the `omitempty` option. -/
def tagHasOmitempty (tag : String) : Bool :=
  ((tagParts tag).tail).contains "omitempty"

/-- The JSON object key `encoding/json` serializes a struct field under:
the tag's name part when nonempty, else the Go field name. -/
def jsonKeyOf (goName tag : String) : String :=
  if jsonTagName tag = "" then goName else jsonTagName tag

/-- Go `encoding/json` emptiness (`isEmptyValue`) for the scalar kinds a
`GoValue.scalar` stands for, judged from the value's JSON image (a length-0
map image is treated as nonempty; those do not occur in generated variables). -/
def jsonScalarEmpty : Json → Bool
  | .null => true
  | .bool b => !b
  | .num n => n == 0
  | .str s => s == ""
  | .arr l => l.isEmpty
  | .obj _ => false

/-- Go `encoding/json` emptiness for `omitempty`: nil pointers, empty
slices and zero scalars are empty; structs (including `Upload`) never are. -/
def goValueEmpty : GoValue → Bool
  | .ptrNil => true
  | .ptr _ => false
  | .slice l => l.isEmpty
  | .upload _ => false
  | .struct _ => false
  | .scalar j => jsonScalarEmpty j

mutual

/-- Go `encoding/json` marshalling of a variables value.  `Upload` has a
`MarshalJSON` that always yields `null`; pointers marshal their referent
(nil as `null`). -/
def goValueToJson : GoValue → Json
  | .upload _ => Json.null
  | .ptrNil => Json.null
  | .ptr v => goValueToJson v
  | .struct fields => Json.obj (goFieldsToJson fields)
  | .slice elems => Json.arr (goElemsToJson elems)
  | .scalar j => j

/-- Struct-field marshalling: skip `json:"-"` fields and empty
`omitempty` fields; the object key is the tag's name part. -/
def goFieldsToJson : List (String × String × GoValue) → List (String × Json)
  | [] => []
  | (goName, tag, v) :: rest =>
    if tag = "-" then goFieldsToJson rest
    else if tagHasOmitempty tag && goValueEmpty v then goFieldsToJson rest
    else (jsonKeyOf goName tag, goValueToJson v) :: goFieldsToJson rest

/-- Element-wise marshalling of a slice/array. -/
def goElemsToJson : List GoValue → List Json
  | [] => []
  | v :: rest => goValueToJson v :: goElemsToJson rest

end

/-- The `graphql.Request` envelope.  `variables` is the `interface{}` field:
`none` is the nil interface. -/
structure Request where
  Query : String
  Variables : Option GoValue
  OpName : String
  UploadFile : Bool

/-- Go `json.Marshal` of a `Request`: fields `query`, `variables,omitempty`
(omitted exactly when the interface is nil), `operationName`, and the
untagged `UploadFile`. -/
def marshalRequest (req : Request) : Json :=
  Json.obj
    ([("query", Json.str req.Query)]
      ++ (match req.Variables with
          | none => []
          | some v => [("variables", goValueToJson v)])
      ++ [("operationName", Json.str req.OpName),
          ("UploadFile", Json.bool req.UploadFile)])

/-! The file-grouping loop of `createUploadFileRequest` and the multipart
body it produces. -/

/-- One step of the duplicate search: walk the existing groups in order and
append the file to the first group whose representative (the group's first
file) has the same `FileName` and byte-equal content; `none` when no group
matches.  Byte contents are only compared when the file names already
match, exactly as in the Go loop. -/
def insertFile (f : FileVariable) : List (List FileVariable) → Option (List (List FileVariable))
  | [] => none
  | g :: gs =>
    match g.head? with
    | some f2 =>
      if f.file.fileName = f2.file.fileName ∧ f.file.body = f2.file.body then
        some ((g ++ [f]) :: gs)
      else
        (insertFile f gs).map (g :: ·)
    | none => (insertFile f gs).map (g :: ·)

/-- Add one collected file to the groups: join the first matching group, or
start a new group at the end. -/
def addFile (gs : List (List FileVariable)) (f : FileVariable) : List (List FileVariable) :=
  (insertFile f gs).getD (gs ++ [[f]])

/-- The whole grouping loop over the collected files, in collection order. -/
def groupFiles (files : List FileVariable) : List (List FileVariable) :=
  files.foldl addFile []

/-- Go `strings.Join`: concatenate with the separator between elements. -/
def joinStrings (sep : String) : List String → String
  | [] => ""
  | [x] => x
  | x :: rest => x ++ sep ++ joinStrings sep rest

/-- `joinFilesMapKey`: the comma-separated quoted dotted paths of a group. -/
def joinFilesMapKey (files : List FileVariable) : String :=
  joinStrings "," (files.map (fun f => "\"" ++ f.mapKey ++ "\""))

/-- The `map` form field: a JSON object text mapping each group index to its
paths when any group exists, and the empty string otherwise. -/
def mapDataOf (groups : List (List FileVariable)) : String :=
  if groups.length > 0 then
    "\x7b" ++ joinStrings ","
        (groups.enum.map (fun p =>
          "\"" ++ toString p.1 ++ "\":[" ++ joinFilesMapKey p.2 ++ "]"))
      ++ "\x7d"
  else ""

/-- One uploaded content part: its form name (the group index), the
optional `Content-Disposition` filename parameter, and its bytes.
(`Content-Type` sniffing via `http.DetectContentType` is not modelled.) -/
structure FilePart where
  name : String
  filename : Option String
  content : List Nat
  deriving Repr, DecidableEq

/-- The multipart request body: the `operations` field (the serialized
envelope, kept as a JSON tree), the `map` field text, and the file parts. -/
structure MultipartBody where
  operations : Json
  mapField : String
  fileParts : List FilePart

/-- `createUploadFileRequest`: serialize the envelope, collect and group the
files, emit the `map` field and one content part per group.  The part's
filename parameter is set only when the representative's trimmed file name
is nonempty.  `none` models the Go panic of `reflect.Value.Type` when the
variables interface is nil (`reflect.ValueOf(nil)` is the zero `Value`). -/
def createUploadFileRequest (req : Request) : Option MultipartBody :=
  match req.Variables with
  | none => none
  | some vars =>
    let groups := groupFiles (findFiles "variables" vars)
    some
      { operations := marshalRequest req
        mapField := mapDataOf groups
        fileParts := groups.enum.map (fun p =>
          let fn := goTrimSpace ((p.2.head?.map (fun f => f.file.fileName)).getD "")
          { name := toString p.1
            filename := if fn = "" then none else some fn
            content := (p.2.head?.map (fun f => f.file.body)).getD [] }) }

/-! The generated polymorphic-decode helper
(`generate/unmarshal_helper.go.tmpl`). -/

/-- What `__unmarshal<Type>` does with a wire value: leave the target
unchanged (`null` input), decode into the variant named by the
discriminator, or fail (missing discriminator, unknown variant, or a JSON
error while reading `__typename`). -/
inductive UnmarshalOutcome where
  | unchanged
  | decoded (typename : String)
  | errMissingDiscriminator
  | errUnknownVariant (typename : String)
  | errJson
  deriving Repr, DecidableEq

/-- Result of `json.Unmarshal(m, &tn)` for
`tn struct { TypeName string }` with key `__typename`: an object yields the
string value of that key (the zero value `""` when the key is absent or
null), a non-string value or a non-object wire value is a JSON error. -/
def typenameOf : Json → Except Unit String
  | .obj fields =>
    match lookupField fields "__typename" with
    | some (.str s) => .ok s
    | some .null => .ok ""
    | some _ => .error ()
    | none => .ok ""
  | .null => .ok ""
  | _ => .error ()

/-- The generated `__unmarshal<Type>` dispatch: `null` input returns with
the target untouched; otherwise read `__typename` and switch — a name among
the type's implementations decodes into that variant, the empty name is the
missing-`__typename` error, anything else the unexpected-concrete-type
error. -/
def unmarshalHelper (implementations : List String) (m : Json) : UnmarshalOutcome :=
  match m with
  | .null => .unchanged
  | _ =>
    match typenameOf m with
    | .error _ => .errJson
    | .ok tn =>
      if implementations.contains tn then .decoded tn
      else if tn = "" then .errMissingDiscriminator
      else .errUnknownVariant tn

/-! The client: request construction and `MakeRequest`. -/

/-- The two HTTP methods `newClient` is instantiated with. -/
inductive Method where
  | get
  | post
  deriving Repr, DecidableEq

/-- The `client` struct: endpoint and method (the `Doer` is passed to
`makeRequest` as a function). -/
structure ClientCfg where
  endpoint : String
  method : Method

/-- A built `*http.Request`, by construction path.  GET carries the query
parameters structurally (URL encoding is not modelled); POST carries the
marshalled envelope; upload carries the multipart body. -/
inductive HttpRequest where
  | getReq (endpoint : String) (queryParam : Option String)
      (opNameParam : Option String) (variablesParam : Option Json)
  | postReq (endpoint : String) (body : Json)
  | uploadReq (endpoint : String) (body : MultipartBody)

/-- Errors raised while building the request, before any network use. -/
inductive BuildError where
  | mutationUnsupported
  deriving Repr, DecidableEq

/-- `createGetRequest`: when the query text is nonempty and, after
`strings.TrimSpace`, has prefix `mutation`, fail; otherwise set the
`query`, `operationName` and `variables` URL parameters, each only when
its source is nonempty (non-nil for variables, which are marshalled). -/
def createGetRequest (endpoint : String) (req : Request) : Except BuildError HttpRequest :=
  if req.Query ≠ "" ∧ startsWithL (goTrimSpaceL req.Query.data) "mutation".data then
    .error .mutationUnsupported
  else
    .ok (.getReq endpoint
      (if req.Query ≠ "" then some req.Query else none)
      (if req.OpName ≠ "" then some req.OpName else none)
      (req.Variables.map goValueToJson))

/-- `createPostRequest`: the marshalled envelope as the body. -/
def createPostRequest (endpoint : String) (req : Request) : HttpRequest :=
  .postReq endpoint (marshalRequest req)

/-- The decoded `graphql.Response` body: `data`, optional `extensions`, and
the `errors` list (each error kept as its message). -/
structure GraphQLResponse where
  Data : Json
  Extensions : Option Json
  Errors : List String

/-- An `*http.Response` as `MakeRequest` observes it: the status code, the
`Status` line text, the result of `io.ReadAll` on the body (an error
message when the body cannot be read), and the result of decoding the body
as a `Response` (carried as data; the JSON parser itself is not embedded). -/
structure HttpResponse where
  StatusCode : Nat
  Status : String
  BodyBytes : Except String String
  BodyDecoded : Except Unit GraphQLResponse

/-- The error (or success) `MakeRequest` returns. -/
inductive MakeResult where
  | success
  | errBuild (e : BuildError)
  | errDo
  | errTransport (status : String) (body : String)
  | errDecode
  | errGraphQL (errors : List String)
  | panicked
  deriving Repr, DecidableEq

/-- Everything observable about one `MakeRequest` call: its return value,
whether the `Doer` was invoked, the caller's `resp` contents when the body
was decoded into it, the `Content-Type` header value when `MakeRequest`
set one (the multipart builder sets its own boundary type, modelled as
`none` here), and the request that was built. -/
structure MakeOutcome where
  result : MakeResult
  didCallDo : Bool
  respOut : Option GraphQLResponse
  contentTypeSet : Option String
  builtRequest : Option HttpRequest

/-- The request-construction phase of `MakeRequest`: GET always goes
through `createGetRequest` (the upload flag is not consulted); POST packs a
multipart body when the upload flag is set (`.ok none` is the nil-variables
panic of the packer) and otherwise marshals a plain POST. -/
def buildRequest (c : ClientCfg) (req : Request) : Except BuildError (Option HttpRequest) :=
  match c.method with
  | .get => (createGetRequest c.endpoint req).map some
  | .post =>
    if req.UploadFile then
      .ok ((createUploadFileRequest req).map (.uploadReq c.endpoint ·))
    else
      .ok (some (createPostRequest c.endpoint req))

/-- The `Content-Type` value `MakeRequest` itself sets: `application/json`
unless this is an upload on a non-GET client (whose multipart writer set a
boundary type already, left untouched and modelled as `none`). -/
def contentTypeFor (c : ClientCfg) (req : Request) : Option String :=
  if req.UploadFile = false ∨ c.method = Method.get then some "application/json"
  else none

/-- The body text reported by the transport error: the raw bytes, or the
`<unreadable: ...>` placeholder when `io.ReadAll` failed. -/
def readBodyText : Except String String → String
  | .ok b => b
  | .error msg => "<unreadable: " ++ msg ++ ">"

/-- Response handling of `MakeRequest`: a status other than 200 is the
transport error carrying the status line and body text; on 200 the body is
decoded into the caller's `resp` (the second component), and a nonempty
decoded `errors` list is returned as the error. -/
def processResponse (httpResp : HttpResponse) : MakeResult × Option GraphQLResponse :=
  if httpResp.StatusCode ≠ 200 then
    (.errTransport httpResp.Status (readBodyText httpResp.BodyBytes), none)
  else
    match httpResp.BodyDecoded with
    | .error _ => (.errDecode, none)
    | .ok resp =>
      if resp.Errors ≠ [] then (.errGraphQL resp.Errors, some resp)
      else (.success, some resp)

/-- The network phase of `MakeRequest`: invoke the `Doer` once and handle
its response. -/
def finishRequest (ct : Option String) (hr : HttpRequest)
    (doer : HttpRequest → Except Unit HttpResponse) : MakeOutcome :=
  match doer hr with
  | .error _ => ⟨.errDo, true, none, ct, some hr⟩
  | .ok httpResp =>
    ⟨(processResponse httpResp).1, true, (processResponse httpResp).2, ct, some hr⟩

/-- `MakeRequest`: build the request, set the `Content-Type` header, then
perform and decode the HTTP round trip.  A build error (or the packer's
nil-variables panic) returns before the `Doer` is ever invoked. -/
def makeRequest (c : ClientCfg) (req : Request)
    (doer : HttpRequest → Except Unit HttpResponse) : MakeOutcome :=
  match buildRequest c req with
  | .error e => ⟨.errBuild e, false, none, none, none⟩
  | .ok none => ⟨.panicked, false, none, none, none⟩
  | .ok (some hr) => finishRequest (contentTypeFor c req) hr doer

/-! The generated `InputWithDefaults` type
(`TestGenerate-DefaultInputsWithForDirective` snapshot): two `string`
fields tagged `json:"field,omitempty"` and `json:"nullableField,omitempty"`. -/

/-- The variables value of an `InputWithDefaults` instance: both generated
fields are plain Go strings with `omitempty` tags. -/
def inputWithDefaultsValue (fieldVal nullableFieldVal : String) : GoValue :=
  .struct
    [("Field", "field,omitempty", .scalar (.str fieldVal)),
     ("NullableField", "nullableField,omitempty", .scalar (.str nullableFieldVal))]

/-- `json.Marshal` of an `InputWithDefaults` value. -/
def marshalInputWithDefaults (fieldVal nullableFieldVal : String) : Json :=
  goValueToJson (inputWithDefaultsValue fieldVal nullableFieldVal)

/-! Helper lemmas shared by the claim theorems. -/

theorem finishRequest_builtRequest (ct : Option String) (hr : HttpRequest)
    (doer : HttpRequest → Except Unit HttpResponse) :
    (finishRequest ct hr doer).builtRequest = some hr := by
  unfold finishRequest
  cases doer hr <;> rfl

theorem finishRequest_contentTypeSet (ct : Option String) (hr : HttpRequest)
    (doer : HttpRequest → Except Unit HttpResponse) :
    (finishRequest ct hr doer).contentTypeSet = ct := by
  unfold finishRequest
  cases doer hr <;> rfl

theorem finishRequest_didCallDo (ct : Option String) (hr : HttpRequest)
    (doer : HttpRequest → Except Unit HttpResponse) :
    (finishRequest ct hr doer).didCallDo = true := by
  unfold finishRequest
  cases doer hr <;> rfl

/-! Claims C2 and C9: the discriminator dispatch of the generated
unmarshal helper. -/

/-- C2: for the generated decode helper of an interface/union-typed field,
an object wire value whose `__typename` is absent or empty fails with the
missing-discriminator error; a present, nonempty `__typename` outside the
possible-types set fails with the unknown-variant error; a `__typename`
among the possible types decodes into the variant of exactly that type. -/
theorem c2_discriminator_dispatch (implementations : List String)
    (fields : List (String × Json)) (hne : "" ∉ implementations) :
    (typenameOf (Json.obj fields) = Except.ok "" →
        unmarshalHelper implementations (Json.obj fields)
          = UnmarshalOutcome.errMissingDiscriminator)
    ∧ (∀ s, typenameOf (Json.obj fields) = Except.ok s → s ∉ implementations → s ≠ "" →
        unmarshalHelper implementations (Json.obj fields)
          = UnmarshalOutcome.errUnknownVariant s)
    ∧ (∀ s, typenameOf (Json.obj fields) = Except.ok s → s ∈ implementations →
        unmarshalHelper implementations (Json.obj fields)
          = UnmarshalOutcome.decoded s) := by
  refine ⟨fun h => ?_, fun s h hs hs0 => ?_, fun s h hs => ?_⟩
  · simp [unmarshalHelper, h, hne]
  · simp [unmarshalHelper, h, hs, hs0]
  · simp [unmarshalHelper, h, hs]

/-- Witness for C2 at concrete inputs: possible types `User`/`Bot`, with an
unknown name, a missing discriminator, and a recognized name. -/
theorem c2_discriminator_dispatch_witness :
    unmarshalHelper ["User", "Bot"] (Json.obj [("__typename", Json.str "Robot")])
        = UnmarshalOutcome.errUnknownVariant "Robot"
    ∧ unmarshalHelper ["User", "Bot"] (Json.obj [])
        = UnmarshalOutcome.errMissingDiscriminator
    ∧ unmarshalHelper ["User", "Bot"] (Json.obj [("__typename", Json.str "User")])
        = UnmarshalOutcome.decoded "User" := by
  have h1 := c2_discriminator_dispatch ["User", "Bot"]
    [("__typename", Json.str "Robot")] (by decide)
  have h2 := c2_discriminator_dispatch ["User", "Bot"] [] (by decide)
  have h3 := c2_discriminator_dispatch ["User", "Bot"]
    [("__typename", Json.str "User")] (by decide)
  exact ⟨h1.2.1 "Robot" rfl (by decide) (by decide), h2.1 rfl, h3.2.2 "User" rfl (by decide)⟩

/-- C9: decoding a JSON `null` wire value for a polymorphic field returns
without error and leaves the target value unchanged (in particular it does
not raise the missing-discriminator error). -/
theorem c9_null_leaves_target_unchanged (implementations : List String) :
    unmarshalHelper implementations Json.null = UnmarshalOutcome.unchanged := rfl

/-! Claim C5: GET-mode mutation rejection. -/

theorem dropWhile_append_left {α : Type} (p : α → Bool) (ws l : List α)
    (h : ∀ c ∈ ws, p c = true) :
    (ws ++ l).dropWhile p = l.dropWhile p := by
  induction ws with
  | nil => rfl
  | cons a ws ih =>
    have ha : p a = true := h a (List.mem_cons_self a ws)
    simp only [List.cons_append, List.dropWhile_cons, ha, if_true]
    exact ih fun c hc => h c (List.mem_cons_of_mem a hc)

theorem dropWhile_append_split {α : Type} [DecidableEq α] (p : α → Bool) (x y : List α) :
    (x ++ y).dropWhile p =
      (if x.dropWhile p = [] then y.dropWhile p else x.dropWhile p ++ y) := by
  induction x with
  | nil => simp
  | cons a x ih =>
    by_cases hp : p a = true
    · simpa [List.dropWhile_cons, hp] using ih
    · simp [List.dropWhile_cons, hp]

theorem startsWithL_append_self (md z : List Char) : startsWithL (md ++ z) md = true := by
  induction md with
  | nil => simp [startsWithL]
  | cons c md ih => simp [startsWithL, ih]

/-- A query text that is whitespace, then the `mutation` keyword, then
anything, still has the `mutation` prefix after `strings.TrimSpace`. -/
theorem trimSpace_mutation_startsWith (ws rest : List Char)
    (hws : ∀ c ∈ ws, goIsSpace c = true) :
    startsWithL (goTrimSpaceL (ws ++ ("mutation".data ++ rest))) "mutation".data = true := by
  unfold goTrimSpaceL
  rw [dropWhile_append_left goIsSpace ws _ hws]
  have hm : ("mutation".data ++ rest).dropWhile goIsSpace = "mutation".data ++ rest := by
    have hd : "mutation".data = 'm' :: "utation".data := rfl
    rw [hd]
    simp [List.dropWhile_cons, show goIsSpace 'm' = false from by decide]
  rw [hm, List.reverse_append, dropWhile_append_split]
  by_cases h : rest.reverse.dropWhile goIsSpace = []
  · rw [if_pos h]
    have h2 : ("mutation".data.reverse).dropWhile goIsSpace = "mutation".data.reverse := by
      decide
    rw [h2, List.reverse_reverse]
    simpa using startsWithL_append_self "mutation".data []
  · rw [if_neg h, List.reverse_append, List.reverse_reverse]
    exact startsWithL_append_self _ _

/-- C5: a GET-mode call whose query text begins, after leading whitespace,
with the keyword `mutation` returns the unsupported-mutation build error,
and the underlying `Doer` is never invoked. -/
theorem c5_get_mutation_no_network (endpoint opName : String) (vars : Option GoValue)
    (upload : Bool) (doer : HttpRequest → Except Unit HttpResponse)
    (q : String) (ws rest : List Char)
    (hws : ∀ c ∈ ws, goIsSpace c = true)
    (hq : q.data = ws ++ ("mutation".data ++ rest)) :
    (makeRequest ⟨endpoint, Method.get⟩ ⟨q, vars, opName, upload⟩ doer).result
        = MakeResult.errBuild BuildError.mutationUnsupported
    ∧ (makeRequest ⟨endpoint, Method.get⟩ ⟨q, vars, opName, upload⟩ doer).didCallDo
        = false := by
  have hne : q ≠ "" := by
    intro h
    rw [h] at hq
    have := congrArg List.length hq
    simp at this
    omega
  have hsw : startsWithL (goTrimSpaceL q.data) "mutation".data = true := by
    rw [hq]
    exact trimSpace_mutation_startsWith ws rest hws
  have hbuild : createGetRequest endpoint ⟨q, vars, opName, upload⟩
      = Except.error BuildError.mutationUnsupported := by
    unfold createGetRequest
    exact if_pos ⟨hne, hsw⟩
  constructor <;> simp [makeRequest, buildRequest, hbuild, Except.map]

/-- Witness for C5: a concrete mutation behind two spaces, on a `Doer`
whose response would otherwise succeed. -/
theorem c5_get_mutation_no_network_witness :
    (makeRequest ⟨"https://example.com/graphql", Method.get⟩
        ⟨"  mutation M", none, "M", false⟩
        (fun _ => Except.ok ⟨200, "200 OK", Except.ok "", Except.error ()⟩)).result
        = MakeResult.errBuild BuildError.mutationUnsupported
    ∧ (makeRequest ⟨"https://example.com/graphql", Method.get⟩
        ⟨"  mutation M", none, "M", false⟩
        (fun _ => Except.ok ⟨200, "200 OK", Except.ok "", Except.error ()⟩)).didCallDo
        = false :=
  c5_get_mutation_no_network "https://example.com/graphql" "M" none false
    (fun _ => Except.ok ⟨200, "200 OK", Except.ok "", Except.error ()⟩)
    "  mutation M" [' ', ' '] " M".data (by decide) (by decide)

/-! Claim C10: the upload flag is ignored on a GET client. -/

/-- C10: on a GET-method client the multipart-upload flag is ignored — the
whole call behaves exactly as with the flag cleared, the request actually
built is the plain GET request (no multipart body), and the `Content-Type`
header is set to `application/json`. -/
theorem c10_get_ignores_upload_flag (endpoint q opName : String) (vars : Option GoValue)
    (doer : HttpRequest → Except Unit HttpResponse) :
    makeRequest ⟨endpoint, Method.get⟩ ⟨q, vars, opName, true⟩ doer
      = makeRequest ⟨endpoint, Method.get⟩ ⟨q, vars, opName, false⟩ doer
    ∧ ∀ hr, (makeRequest ⟨endpoint, Method.get⟩ ⟨q, vars, opName, true⟩ doer).builtRequest
          = some hr →
        hr = HttpRequest.getReq endpoint (if q ≠ "" then some q else none)
              (if opName ≠ "" then some opName else none) (vars.map goValueToJson)
        ∧ (makeRequest ⟨endpoint, Method.get⟩ ⟨q, vars, opName, true⟩ doer).contentTypeSet
            = some "application/json" := by
  constructor
  · rfl
  · intro hr h
    by_cases hc : (q ≠ "" ∧ startsWithL (goTrimSpaceL q.data) "mutation".data = true)
    · have hbuild : createGetRequest endpoint ⟨q, vars, opName, true⟩
          = Except.error BuildError.mutationUnsupported := by
        unfold createGetRequest
        exact if_pos hc
      simp [makeRequest, buildRequest, hbuild, Except.map] at h
    · have hbuild : createGetRequest endpoint ⟨q, vars, opName, true⟩
          = Except.ok (HttpRequest.getReq endpoint (if q ≠ "" then some q else none)
              (if opName ≠ "" then some opName else none) (vars.map goValueToJson)) := by
        unfold createGetRequest
        exact if_neg hc
      have hmk : makeRequest ⟨endpoint, Method.get⟩ ⟨q, vars, opName, true⟩ doer
          = finishRequest (some "application/json")
              (HttpRequest.getReq endpoint (if q ≠ "" then some q else none)
                (if opName ≠ "" then some opName else none) (vars.map goValueToJson)) doer := by
        simp [makeRequest, buildRequest, hbuild, Except.map, contentTypeFor]
      rw [hmk, finishRequest_builtRequest] at h
      refine ⟨(Option.some.inj h).symm, ?_⟩
      rw [hmk, finishRequest_contentTypeSet]

/-- Witness for C10 at a concrete GET request with the upload flag set. -/
theorem c10_get_ignores_upload_flag_witness :
    makeRequest ⟨"e", Method.get⟩ ⟨"query Q", none, "Q", true⟩ (fun _ => Except.error ())
      = makeRequest ⟨"e", Method.get⟩ ⟨"query Q", none, "Q", false⟩ (fun _ => Except.error ())
    ∧ (makeRequest ⟨"e", Method.get⟩ ⟨"query Q", none, "Q", true⟩
        (fun _ => Except.error ())).contentTypeSet = some "application/json" := by
  have h := c10_get_ignores_upload_flag "e" "query Q" "Q" none (fun _ => Except.error ())
  exact ⟨h.1, (h.2 (HttpRequest.getReq "e" (some "query Q") (some "Q") none) (by rfl)).2⟩

/-! Claims C3 and C4: response decoding. -/

/-- C3 (amended to the code's status check): on a response with status
exactly 200 whose body decodes with a nonempty `errors` list, the call
returns that list as the GraphQL error — taking priority over success even
though `data` is present — and the decoded response is still populated
into the caller's `resp` object. -/
theorem c3_errors_take_priority (c : ClientCfg) (req : Request)
    (doer : HttpRequest → Except Unit HttpResponse) (hr : HttpRequest)
    (httpResp : HttpResponse) (resp : GraphQLResponse)
    (hb : buildRequest c req = Except.ok (some hr))
    (hd : doer hr = Except.ok httpResp)
    (hs : httpResp.StatusCode = 200)
    (hdec : httpResp.BodyDecoded = Except.ok resp)
    (herr : resp.Errors ≠ []) :
    (makeRequest c req doer).result = MakeResult.errGraphQL resp.Errors
    ∧ (makeRequest c req doer).respOut = some resp := by
  have hp : processResponse httpResp = (MakeResult.errGraphQL resp.Errors, some resp) := by
    unfold processResponse
    rw [if_neg (by simp [hs])]
    rw [hdec]
    simp [herr]
  constructor <;> simp [makeRequest, hb, finishRequest, hd, hp]

/-- Witness for C3: a 200 response carrying both `data` and a nonempty
`errors` list. -/
theorem c3_errors_take_priority_witness :
    (makeRequest ⟨"e", Method.post⟩ ⟨"q", none, "op", false⟩
        (fun _ => Except.ok ⟨200, "200 OK", Except.ok "",
            Except.ok ⟨Json.str "d", none, ["boom"]⟩⟩)).result
      = MakeResult.errGraphQL ["boom"]
    ∧ (makeRequest ⟨"e", Method.post⟩ ⟨"q", none, "op", false⟩
        (fun _ => Except.ok ⟨200, "200 OK", Except.ok "",
            Except.ok ⟨Json.str "d", none, ["boom"]⟩⟩)).respOut
      = some ⟨Json.str "d", none, ["boom"]⟩ :=
  c3_errors_take_priority ⟨"e", Method.post⟩ ⟨"q", none, "op", false⟩
    (fun _ => Except.ok ⟨200, "200 OK", Except.ok "",
        Except.ok ⟨Json.str "d", none, ["boom"]⟩⟩)
    (createPostRequest "e" ⟨"q", none, "op", false⟩)
    ⟨200, "200 OK", Except.ok "", Except.ok ⟨Json.str "d", none, ["boom"]⟩⟩
    ⟨Json.str "d", none, ["boom"]⟩
    rfl rfl rfl rfl (by simp)

/-- Counterexample to C3 as stated: a 2xx status other than 200 (here 201)
whose body decodes with nonempty `errors` is returned as the transport
error, not as the GraphQL error list — the code tests for exactly 200. -/
theorem c3_counterexample_201 :
    (makeRequest ⟨"e", Method.post⟩ ⟨"q", none, "op", false⟩
        (fun _ => Except.ok ⟨201, "201 Created", Except.ok "resp-body",
            Except.ok ⟨Json.str "d", none, ["boom"]⟩⟩)).result
      = MakeResult.errTransport "201 Created" "resp-body"
    ∧ (makeRequest ⟨"e", Method.post⟩ ⟨"q", none, "op", false⟩
        (fun _ => Except.ok ⟨201, "201 Created", Except.ok "resp-body",
            Except.ok ⟨Json.str "d", none, ["boom"]⟩⟩)).result
      ≠ MakeResult.errGraphQL ["boom"] := by
  exact ⟨rfl, by decide⟩

/-- The processed 200 response is never a transport error, whatever the
body holds. -/
theorem processResponse_200_not_transport (httpResp : HttpResponse)
    (hs : httpResp.StatusCode = 200) (st b : String) :
    (processResponse httpResp).1 ≠ MakeResult.errTransport st b := by
  unfold processResponse
  rw [if_neg (by simp [hs])]
  cases hdec : httpResp.BodyDecoded with
  | error e => simp
  | ok resp =>
    by_cases he : resp.Errors = [] <;> simp [he]

/-- C4 (amended to the code's status check): a response status other than
exactly 200 fails with the transport error carrying the status line and
body text — the `<unreadable: ...>` placeholder when the body cannot be
read — and a 200 response never yields a transport error. -/
theorem c4_transport_error_status (c : ClientCfg) (req : Request)
    (doer : HttpRequest → Except Unit HttpResponse) (hr : HttpRequest)
    (httpResp : HttpResponse)
    (hb : buildRequest c req = Except.ok (some hr))
    (hd : doer hr = Except.ok httpResp) :
    (httpResp.StatusCode ≠ 200 →
        (makeRequest c req doer).result
          = MakeResult.errTransport httpResp.Status (readBodyText httpResp.BodyBytes))
    ∧ (∀ msg, httpResp.BodyBytes = Except.error msg →
        readBodyText httpResp.BodyBytes = "<unreadable: " ++ msg ++ ">")
    ∧ (httpResp.StatusCode = 200 →
        ∀ st b, (makeRequest c req doer).result ≠ MakeResult.errTransport st b) := by
  have hmk : makeRequest c req doer = finishRequest (contentTypeFor c req) hr doer := by
    simp [makeRequest, hb]
  refine ⟨fun hs => ?_, fun msg hmsg => by rw [hmsg]; rfl, fun hs st b => ?_⟩
  · rw [hmk]
    simp [finishRequest, hd, processResponse, hs]
  · rw [hmk]
    simp only [finishRequest, hd]
    exact processResponse_200_not_transport httpResp hs st b

/-- Witness for C4: a 500 response with an unreadable body. -/
theorem c4_transport_error_status_witness :
    (makeRequest ⟨"e", Method.post⟩ ⟨"q2", none, "op2", false⟩
        (fun _ => Except.ok ⟨500, "500 Internal Server Error",
            Except.error "read failed", Except.error ()⟩)).result
      = MakeResult.errTransport "500 Internal Server Error"
          "<unreadable: read failed>" := by
  have h := c4_transport_error_status ⟨"e", Method.post⟩ ⟨"q2", none, "op2", false⟩
    (fun _ => Except.ok ⟨500, "500 Internal Server Error",
        Except.error "read failed", Except.error ()⟩)
    (createPostRequest "e" ⟨"q2", none, "op2", false⟩)
    ⟨500, "500 Internal Server Error", Except.error "read failed", Except.error ()⟩
    rfl rfl
  exact h.1 (by decide)

/-- Counterexample to C4 as stated: a 2xx status other than 200 (here 204)
does fail with a transport error, because the code tests for exactly 200,
not for the 2xx class. -/
theorem c4_counterexample_204 :
    (makeRequest ⟨"e", Method.post⟩ ⟨"q3", none, "op3", false⟩
        (fun _ => Except.ok ⟨204, "204 No Content", Except.ok "",
            Except.error ()⟩)).result
      = MakeResult.errTransport "204 No Content" "" := rfl

/-! Claim C6: optional input field serialization. -/

/-- Marshalling one generated `string`-typed field with an `omitempty`
tag: the key is omitted exactly when the string is empty, and a nonempty
value serializes as a JSON string. -/
theorem goFieldsToJson_omitempty_str (gn key tag v : String)
    (rest : List (String × String × GoValue))
    (htag : tag ≠ "-") (hom : tagHasOmitempty tag = true)
    (hkey : jsonKeyOf gn tag = key) :
    goFieldsToJson ((gn, tag, GoValue.scalar (Json.str v)) :: rest)
      = (if v = "" then goFieldsToJson rest
         else (key, Json.str v) :: goFieldsToJson rest) := by
  by_cases hv : v = "" <;>
    simp [goFieldsToJson, htag, hom, goValueEmpty, jsonScalarEmpty, hv, hkey, goValueToJson]

/-- Counterexample to C6 as stated: the generated optional fields are plain
Go strings under `omitempty`, so the zero/null value is omitted rather
than serialized as `null` — here `NullableField` is explicitly the empty
(zero) value, and the serialized object has no `nullableField` key at
all, let alone a `null` one. -/
theorem c6_counterexample_empty_is_omitted :
    marshalInputWithDefaults "x" "" = Json.obj [("field", Json.str "x")] := rfl

/-- C6 (amended): an unset (zero-value) optional input field is omitted
from the serialized object; an explicit JSON `null` is not representable
by the generated plain-string field — any value it serializes is a JSON
string under the wire key, and the empty value is omitted, never emitted
as `null`. -/
theorem c6_optional_field_serialization (f nf : String) :
    (nf = "" → marshalInputWithDefaults f nf
        = Json.obj (if f = "" then [] else [("field", Json.str f)]))
    ∧ (nf ≠ "" → marshalInputWithDefaults f nf
        = Json.obj ((if f = "" then [] else [("field", Json.str f)])
            ++ [("nullableField", Json.str nf)])) := by
  have h1 := goFieldsToJson_omitempty_str "Field" "field" "field,omitempty" f
    [("NullableField", "nullableField,omitempty", GoValue.scalar (Json.str nf))]
    (by decide) rfl rfl
  have h2 := goFieldsToJson_omitempty_str "NullableField" "nullableField"
    "nullableField,omitempty" nf [] (by decide) rfl rfl
  have hm : marshalInputWithDefaults f nf
      = Json.obj (goFieldsToJson
          [("Field", "field,omitempty", GoValue.scalar (Json.str f)),
           ("NullableField", "nullableField,omitempty", GoValue.scalar (Json.str nf))]) := rfl
  constructor
  · intro h
    rw [hm, h1, h2]
    by_cases hf : f = "" <;> simp [h, hf, goFieldsToJson]
  · intro h
    rw [hm, h1, h2]
    by_cases hf : f = "" <;> simp [h, hf, goFieldsToJson]

/-- Witness for C6 at concrete nonempty values. -/
theorem c6_optional_field_serialization_witness :
    marshalInputWithDefaults "x" "y"
      = Json.obj [("field", Json.str "x"), ("nullableField", Json.str "y")] := by
  have h := (c6_optional_field_serialization "x" "y").2 (by decide)
  exact h

/-! Claim C7: dotted path construction of the file walk. -/

/-- Counterexample to C7 as stated: `findFiles` extends the path with the
raw `json` tag text, options included — a field tagged
`json:"files,omitempty"` yields the path segment `files,omitempty`, while
the wire key the field is actually serialized under is `files`. -/
theorem c7_counterexample_raw_tag_in_path :
    findFiles "variables" (GoValue.struct [("Files", "files,omitempty",
        GoValue.slice [GoValue.upload ⟨"a.txt", [7]⟩])])
      = [⟨"variables.files,omitempty.0", ⟨"a.txt", [7]⟩⟩]
    ∧ jsonKeyOf "Files" "files,omitempty" = "files"
    ∧ ("variables.files,omitempty.0" : String) ≠ "variables.files.0" :=
  ⟨rfl, rfl, by decide⟩

/-- C7 (amended): the walk tags each `Upload` leaf with its dotted path,
entering sequences by numeric index and records by the raw `json` tag text
(options such as `,omitempty` included verbatim) when the tag is nonempty
and not `-`, and by the internal Go field name otherwise — not by the
serialized wire key. -/
theorem c7_path_construction (k gn gn2 t : String) (v : GoValue) (u : Upload)
    (elems : List GoValue) (i : Nat) (vs : List GoValue)
    (ht : t ≠ "" ∧ t ≠ "-") :
    findFiles k (GoValue.upload u) = [⟨k, u⟩]
    ∧ findFiles k (GoValue.struct [(gn, t, v)]) = findFiles (k ++ "." ++ t) v
    ∧ findFiles k (GoValue.struct [(gn2, "", v)]) = findFiles (k ++ "." ++ gn2) v
    ∧ findFiles k (GoValue.slice elems) = findFilesElems k 0 elems
    ∧ findFilesElems k i (v :: vs)
        = findFiles (k ++ "." ++ toString i) v ++ findFilesElems k (i + 1) vs := by
  refine ⟨rfl, ?_, ?_, rfl, rfl⟩
  · simp [findFiles, findFilesFields, fieldNameOf, ht.1, ht.2]
  · simp [findFiles, findFilesFields, fieldNameOf]

/-- Witness for C7 at a concrete one-field record holding a slice. -/
theorem c7_path_construction_witness :
    findFiles "variables" (GoValue.struct [("Input", "input",
        GoValue.slice [GoValue.upload ⟨"b.txt", [1]⟩])])
      = [⟨"variables.input.0", ⟨"b.txt", [1]⟩⟩] := by
  have h := c7_path_construction "variables" "Input" "X" "input"
    (GoValue.slice [GoValue.upload ⟨"b.txt", [1]⟩]) ⟨"b.txt", [1]⟩ [] 0 []
    (by exact ⟨by decide, by decide⟩)
  rw [h.2.1]
  rfl

/-! Claim C8: packing with an empty file set. -/

/-- Counterexample to C8 as stated: a multipart request whose variables
interface is nil contains no File Values, yet packing does not succeed —
`reflect.ValueOf(nil)` is the zero `Value` and `Value.Type` panics on it
(modelled as `none`). -/
theorem c8_counterexample_nil_variables :
    createUploadFileRequest ⟨"q", none, "op", true⟩ = none := rfl

/-- C8 (amended): for a multipart request with a non-nil variables value
containing no File Values, packing succeeds, the `map` field is empty,
there are no file parts, and the `operations` field is the serialized
request envelope. -/
theorem c8_empty_fileset (req : Request) (vars : GoValue)
    (hv : req.Variables = some vars)
    (hnf : findFiles "variables" vars = []) :
    createUploadFileRequest req = some ⟨marshalRequest req, "", []⟩ := by
  unfold createUploadFileRequest
  rw [hv]
  simp [hnf, groupFiles, mapDataOf]

/-- Witness for C8: a request whose variables are a plain scalar. -/
theorem c8_empty_fileset_witness :
    createUploadFileRequest ⟨"q", some (GoValue.scalar (Json.str "v")), "op", true⟩
      = some ⟨marshalRequest ⟨"q", some (GoValue.scalar (Json.str "v")), "op", true⟩,
          "", []⟩ :=
  c8_empty_fileset ⟨"q", some (GoValue.scalar (Json.str "v")), "op", true⟩
    (GoValue.scalar (Json.str "v")) rfl rfl

/-! Claim C1: deduplication of identical file content. -/

/-- Counterexample to C1 as stated: two File Values with byte-identical
content `[1, 2, 3]` but different filenames are packed as two separate
content parts, each path under its own map index — the grouping loop only
compares content after the filenames already match. -/
theorem c1_counterexample_different_filenames :
    (createUploadFileRequest ⟨"q", some (GoValue.struct
        [("F1", "f1", GoValue.upload ⟨"a.txt", [1, 2, 3]⟩),
         ("F2", "f2", GoValue.upload ⟨"b.txt", [1, 2, 3]⟩)]), "op", true⟩).map
        (fun b => (b.fileParts.length, b.mapField))
      = some (2, "\x7b\"0\":[\"variables.f1\"],\"1\":[\"variables.f2\"]\x7d") := rfl

/-- The `map` field text for a single group. -/
theorem mapDataOf_single (g : List FileVariable) :
    mapDataOf [g] = "\x7b" ++ ("\"0\":[" ++ joinFilesMapKey g ++ "]") ++ "\x7d" := by
  have h1 : [g].enum.map (fun p => "\"" ++ toString p.1 ++ "\":[" ++ joinFilesMapKey p.2 ++ "]")
      = ["\"0\":[" ++ joinFilesMapKey g ++ "]"] := by
    show ["\"" ++ toString (0 : Nat) ++ "\":[" ++ joinFilesMapKey g ++ "]"] = _
    rfl
  unfold mapDataOf
  rw [if_pos (by simp), h1]
  rfl

/-- Two collected files agreeing on both filename and byte content form a
single group. -/
theorem groupFiles_pair_same (k1 k2 : String) (u1 u2 : Upload)
    (hname : u1.fileName = u2.fileName) (hbody : u1.body = u2.body) :
    groupFiles [⟨k1, u1⟩, ⟨k2, u2⟩] = [[⟨k1, u1⟩, ⟨k2, u2⟩]] := by
  simp [groupFiles, addFile, insertFile, hname, hbody]

/-- C1 (amended): deduplication requires byte-identical content and an
identical filename.  Two such File Values produce one group, and the
packed body has exactly one content part with both dotted paths listed
under index 0 of the `map` field.  (With different filenames the same
content yields two parts; see the counterexample.) -/
theorem c1_dedup_same_name_and_content (u1 u2 : Upload) (k1 k2 : String)
    (hname : u1.fileName = u2.fileName) (hbody : u1.body = u2.body) :
    groupFiles [⟨k1, u1⟩, ⟨k2, u2⟩] = [[⟨k1, u1⟩, ⟨k2, u2⟩]]
    ∧ (createUploadFileRequest ⟨"q", some (GoValue.struct
          [("F1", "f1", GoValue.upload u1), ("F2", "f2", GoValue.upload u2)]), "op", true⟩).map
          (fun b => (b.fileParts.length, b.mapField))
        = some (1, "\x7b\"0\":[\"variables.f1\",\"variables.f2\"]\x7d") := by
  refine ⟨groupFiles_pair_same k1 k2 u1 u2 hname hbody, ?_⟩
  have hf : findFiles "variables" (GoValue.struct
      [("F1", "f1", GoValue.upload u1), ("F2", "f2", GoValue.upload u2)])
      = [⟨"variables.f1", u1⟩, ⟨"variables.f2", u2⟩] := rfl
  simp only [createUploadFileRequest, hf,
    groupFiles_pair_same "variables.f1" "variables.f2" u1 u2 hname hbody,
    mapDataOf_single]
  rfl

/-- Witness for C1 at two concrete identical File Values. -/
theorem c1_dedup_same_name_and_content_witness :
    (createUploadFileRequest ⟨"q", some (GoValue.struct
        [("F1", "f1", GoValue.upload ⟨"a.txt", [9]⟩),
         ("F2", "f2", GoValue.upload ⟨"a.txt", [9]⟩)]), "op", true⟩).map
        (fun b => (b.fileParts.length, b.mapField))
      = some (1, "\x7b\"0\":[\"variables.f1\",\"variables.f2\"]\x7d") :=
  (c1_dedup_same_name_and_content ⟨"a.txt", [9]⟩ ⟨"a.txt", [9]⟩
    "variables.f1" "variables.f2" rfl rfl).2

end Genqlient
